import Mathlib

/-!
Verification development for the snapshotter transaction-receipt processor.

The Python source is shallowly embedded: Python strings become `String`,
dicts become association lists, JSON-RPC / Redis / ABI-codec calls become
oracle functions supplied through environment structures, and a Python
exception becomes an `Except`/`Option` error value.  Each definition below
names the source construct it translates.
-/

namespace TxProc

/-- Python `str.lower()` restricted to the ASCII data the processor handles:
lowercase every character. -/
def pyLower (s : String) : String :=
  String.mk (s.data.map Char.toLower)

/-- Helper for Python `str.lstrip('0x')`: drop every leading character that is
`'0'` or `'x'` (note: a character set, not a literal prefix). -/
def lstrip0xAux : List Char → List Char
  | [] => []
  | c :: rest => if c = '0' ∨ c = 'x' then lstrip0xAux rest else c :: rest

/-- Python `s.lstrip('0x')`. -/
def lstrip0x (s : String) : String :=
  String.mk (lstrip0xAux s.data)

/-- Python `s.startswith('0x')`. -/
def startsWith0x (s : String) : Bool :=
  match s.data with
  | '0' :: 'x' :: _ => true
  | _ => false

/-- `event_filter.py` lines 120-123 (`_prepare_filters`): a configured topic is
lowercased and `'0x'` is prepended when absent. -/
def normalizeTopicConfig (t : String) : String :=
  let n := pyLower t
  if startsWith0x n then n else String.mk ('0' :: 'x' :: n.data)

/-- `event_filter.py` line 208 (`process_receipt`):
`'0x' + log_topic0_hex.lower().lstrip('0x')`. -/
def normalizeTopicReceipt (t : String) : String :=
  String.mk ('0' :: 'x' :: (lstrip0x (pyLower t)).data)

/-- `event_filter.py` line 240: per-member topic normalization,
`'0x' + t.lstrip('0x').lower()` (lstrip before lower here). -/
def normalizeTopicMember (t : String) : String :=
  String.mk ('0' :: 'x' :: (pyLower (lstrip0x t)).data)

/-- Value of one hex digit, as accepted by Python `int(_, 16)`. -/
def hexDigitVal (c : Char) : Option Nat :=
  if '0' ≤ c ∧ c ≤ '9' then some (c.toNat - '0'.toNat)
  else if 'a' ≤ c ∧ c ≤ 'f' then some (c.toNat - 'a'.toNat + 10)
  else if 'A' ≤ c ∧ c ≤ 'F' then some (c.toNat - 'A'.toNat + 10)
  else none

/-- Fold a list of hex digits into a number; `none` on an invalid digit. -/
def parseHexDigits : List Char → Nat → Option Nat
  | [], acc => some acc
  | c :: rest, acc =>
    match hexDigitVal c with
    | some d => parseHexDigits rest (acc * 16 + d)
    | none => none

/-- Python `int(s, 16)` on the non-negative inputs the processor sees:
an optional `0x`/`0X` prefix followed by at least one hex digit; every
other input raises `ValueError`, modelled as `none`. -/
def pyIntHex (s : String) : Option Nat :=
  let ds :=
    match s.data with
    | '0' :: 'x' :: rest => rest
    | '0' :: 'X' :: rest => rest
    | l => l
  if ds.isEmpty then none else parseHexDigits ds 0

/-- A character of a lowercase hex encoding (what `bytes.hex()` produces):
code point in 48-57 (`'0'`-`'9'`) or 97-102 (`'a'`-`'f'`). -/
def isLowerHexDigit (c : Char) : Bool :=
  (48 ≤ c.toNat ∧ c.toNat ≤ 57) ∨ (97 ≤ c.toNat ∧ c.toNat ≤ 102)

/-- A 32-byte topic hash rendered the way `_prepare_filters` line 133 renders
it: `'0x' +` the lowercase hex digits. -/
def topicOfHex (h : List Char) : String :=
  String.mk ('0' :: 'x' :: h)

/-- Python-dict lookup on an association list (first binding wins; the
embedding below keeps at most one binding per key, like a dict). -/
def lookupAssoc {β : Type} : List (String × β) → String → Option β
  | [], _ => none
  | (k', v) :: rest, k => if k' = k then some v else lookupAssoc rest k

/-- Python-dict assignment `d[k] = v`: update the binding in place when the
key exists, append otherwise. -/
def assocSet {β : Type} : List (String × β) → String → β → List (String × β)
  | [], k, v => [(k, v)]
  | (k', v') :: rest, k, v =>
    if k' = k then (k, v) :: rest else (k', v') :: assocSet rest k v

/-- Does `p` occur at the head of `l`? (helper for substring search and
pattern formatting). -/
def listStarts : List Char → List Char → Bool
  | [], _ => true
  | _ :: _, [] => false
  | p :: ps, c :: cs => p = c && listStarts ps cs

/-- Python `needle in hay` on strings: contiguous-substring test. -/
def containsSub (needle : List Char) : List Char → Bool
  | [] => needle.isEmpty
  | c :: rest => listStarts needle (c :: rest) || containsSub needle rest

/-- Fuelled replacement of every occurrence of `pat` by `repl`, scanning left
to right (fuel is the length of the scanned list, enough for one step per
character). -/
def replaceSubAux (pat repl : List Char) : Nat → List Char → List Char
  | 0, l => l
  | _ + 1, [] => []
  | fuel + 1, c :: rest =>
    if listStarts pat (c :: rest) && !pat.isEmpty then
      repl ++ replaceSubAux pat repl fuel (List.drop pat.length (c :: rest))
    else
      c :: replaceSubAux pat repl fuel rest

/-- Replace every occurrence of `pat` in `s` by `repl`. -/
def replaceSub (pat repl s : String) : String :=
  String.mk (replaceSubAux pat.data repl.data s.data.length s.data)

/-- `event_filter.py` lines 226-229: Python
`redis_key_pattern.format(namespace=ns, address=addr)` — substitute the two
placeholders of the configured pattern. -/
def formatKey (pattern ns addr : String) : String :=
  replaceSub "{address}" addr (replaceSub "{namespace}" ns pattern)

/-! ## Event-filter data model (`data_models.py`, `event_filter.py`) -/

/-- One entry of an ABI JSON array; the embedding keeps the two fields
`_prepare_filters` reads (`type`, `name`). Topic computation
(`event_abi_to_log_topic`, keccak) stays an oracle. -/
structure AbiItem where
  type : String
  name : Option String
  deriving DecidableEq, Repr

/-- `ProcessedEventDetail` from `data_models.py`. -/
structure ProcessedEventDetail where
  name : String
  abi : AbiItem
  deriving DecidableEq, Repr

/-- `ProcessedFilterData` from `data_models.py`: `events_by_topic` is a dict
keyed by standard `0x`-lowercase topic hashes. -/
structure ProcessedFilterData where
  eventsByTopic : List (String × ProcessedEventDetail)
  redisKeyPattern : String
  deriving DecidableEq, Repr

/-- One element of a receipt's `logs` array: the fields `process_receipt`
reads. `none` models an absent JSON field. -/
structure LogEntry where
  address : Option String
  topics : List String
  logIndex : Option String
  data : Option String
  deriving DecidableEq, Repr

/-- A transaction receipt, restricted to the fields the processor reads. -/
structure Receipt where
  blockNumber : Option String
  transactionIndex : Option String
  logs : List LogEntry
  deriving DecidableEq, Repr

/-- Decoded event arguments (`dict(decoded_event['args'])`), name-value
pairs. -/
def Args : Type := List (String × String)

/-- The JSON document stored as a sorted-set member (`event_data_to_store`,
`event_filter.py` lines 232-244); `json.dumps` of distinct dicts is
injective, so the member is modelled as the dict itself. -/
structure StoredMember where
  eventName : String
  filterName : String
  txHash : String
  blockNumber : Nat
  txIndex : Nat
  logIndex : Nat
  address : String
  topics : List String
  data : String
  args : Args
  _score : Nat

/-- `event_filter.py` lines 212-255, the body of the per-filter loop for one
log whose fields already passed the per-log guards: when the pool gate
accepts the lowercase address, the normalized `topics[0]` is a key of
`events_by_topic`, and ABI decoding succeeds, emit exactly one
`(redis_key, member, score)` triple; otherwise emit nothing (a decode
failure is logged and skipped). -/
def filterContribution (gate : String → Bool) (decode : AbiItem → LogEntry → Option Args)
    (txHash ns : String) (blockNumber txIndex : Nat)
    (log : LogEntry) (a : String) (topics : List String) (li : Nat)
    (fp : String × ProcessedFilterData) : Option (String × StoredMember × Nat) :=
  if gate (pyLower a) then
    match lookupAssoc fp.2.eventsByTopic (normalizeTopicReceipt (topics.headD "")) with
    | some ed =>
      match decode ed.abi log with
      | some args =>
        let score := blockNumber * 1000000 + li
        some (formatKey fp.2.redisKeyPattern ns a,
          { eventName := ed.name
            filterName := fp.1
            txHash := txHash
            blockNumber := blockNumber
            txIndex := txIndex
            logIndex := li
            address := a
            topics := topics.map normalizeTopicMember
            data := log.data.getD ""
            args := args
            _score := score }, score)
      | none => none
    | none => none
  else none

/-- `event_filter.py` lines 196-264: process one log entry against every
processed filter.  A missing/empty `address`, missing/empty `topics`, or
missing `logIndex` skips the log; a `logIndex` that fails `int(_, 16)`
raises and is caught by the per-log handler, also skipping the log. -/
def processLog (gate : String → Bool) (decode : AbiItem → LogEntry → Option Args)
    (filters : List (String × ProcessedFilterData))
    (txHash ns : String) (blockNumber txIndex : Nat)
    (log : LogEntry) : List (String × StoredMember × Nat) :=
  match log.address, log.topics, log.logIndex with
  | some a, t0 :: ts, some liHex =>
    if a = "" then []
    else
      match pyIntHex liHex with
      | none => []
      | some li =>
        filters.filterMap
          (filterContribution gate decode txHash ns blockNumber txIndex log a (t0 :: ts) li)
  | _, _, _ => []

/-- `event_filter.py` lines 164-264 (`process_receipt` up to the pipeline
flush): the receipt-level guards, then the per-log loop.  The result is the
ordered list of `(redis_key, member, score)` insertions accumulated into
`commands_by_key` and submitted as `zadd` calls. -/
def processReceiptCommands (gate : String → Bool) (decode : AbiItem → LogEntry → Option Args)
    (filters : List (String × ProcessedFilterData))
    (txHash ns : String) (receipt : Receipt) : List (String × StoredMember × Nat) :=
  if receipt.logs.isEmpty then []
  else
    match receipt.blockNumber, receipt.transactionIndex with
    | some bh, some th =>
      match pyIntHex bh, pyIntHex th with
      | some bn, some ti =>
        receipt.logs.flatMap (processLog gate decode filters txHash ns bn ti)
      | _, _ => []
    | _, _ => []

/-! ## Filter preparation (`event_filter.py`, `_prepare_filters`) -/

/-- One filter definition from the event-filter configuration
(`EventFilterDefinition` in `data_models.py`, restricted to the fields
`_prepare_filters` reads). -/
structure FilterDef where
  filter_name : String
  abi_path : String
  event_topics : List String
  redis_key_pattern : String
  deriving DecidableEq, Repr

/-- Outcome of opening and JSON-decoding the ABI file at a path:
absent file, malformed JSON, or the parsed array of ABI items. -/
inductive AbiLoad
  | missing
  | malformed
  | ok (items : List AbiItem)
  deriving DecidableEq, Repr

/-- The `RuntimeError`s `_prepare_filters` raises at lines 107 and 114. -/
inductive PrepError
  | abiMissing
  | abiMalformed
  deriving DecidableEq, Repr

/-- `event_filter.py` lines 127-146: walk the ABI's event entries, compute
each topic via the keccak oracle `topicOf` (`none` = the per-item exception
at line 142, caught and skipped), and keep the entries whose standard hash
is among the normalized configured topics.  The result is the
`target_event_details` dict. -/
def matchedEvents (topicOf : AbiItem → Option String) (f : FilterDef)
    (items : List AbiItem) : List (String × ProcessedEventDetail) :=
  let cfgTopics := f.event_topics.map normalizeTopicConfig
  let eventItems := items.filter (fun it => it.type = "event")
  eventItems.foldl
    (fun acc it =>
      match topicOf it with
      | none => acc
      | some hhex =>
        let std := String.mk ('0' :: 'x' :: (pyLower hhex).data)
        if std ∈ cfgTopics then
          assocSet acc std ⟨it.name.getD "UnnamedEvent", it⟩
        else acc)
    []

/-- `event_filter.py` lines 95-159, the body of the per-filter `try`: a
missing ABI file raises `RuntimeError` (line 107), malformed ABI JSON raises
`RuntimeError` (line 114); zero matched topics skips the filter (`continue`,
line 153, `ok none`); otherwise the filter's `ProcessedFilterData` is
produced. -/
def prepareOneFilterBody (load : String → AbiLoad) (topicOf : AbiItem → Option String)
    (f : FilterDef) : Except PrepError (Option (String × ProcessedFilterData)) :=
  match load f.abi_path with
  | .missing => .error .abiMissing
  | .malformed => .error .abiMalformed
  | .ok items =>
    let matched := matchedEvents topicOf f items
    if matched.isEmpty then .ok none
    else .ok (some (f.filter_name, ⟨matched, f.redis_key_pattern⟩))

/-- `event_filter.py` lines 161-162, the per-filter `except`: every exception
from the body — including the two `RuntimeError`s — is caught, logged, and
the loop continues with the next filter. -/
def prepareOneFilter (load : String → AbiLoad) (topicOf : AbiItem → Option String)
    (f : FilterDef) : Option (String × ProcessedFilterData) :=
  match prepareOneFilterBody load topicOf f with
  | .ok r => r
  | .error _ => none

/-- `event_filter.py` lines 88-162 (`_prepare_filters`): fold every filter
definition into the `processed_filters` dict.  The function is total: no
error ever escapes to the constructor. -/
def prepareFilters (load : String → AbiLoad) (topicOf : AbiItem → Option String)
    (defs : List FilterDef) : List (String × ProcessedFilterData) :=
  defs.foldl
    (fun acc f =>
      match prepareOneFilter load topicOf f with
      | some (k, v) => assocSet acc k v
      | none => acc)
    []

/-! ## UniswapV3 pool detector (`uniswapv3_detector.py`) -/

/-- ERC-20 token metadata (`_get_erc20_metadata` result dict). -/
structure Erc20Metadata where
  name : String
  symbol : String
  decimals : Int
  deriving DecidableEq, Repr

/-- Token half of the pool-metadata dict. -/
structure TokenInfo where
  address : String
  meta : Erc20Metadata
  deriving DecidableEq, Repr

/-- The pool-metadata dict built at `uniswapv3_detector.py` lines 314-327. -/
structure PoolMetadata where
  address : String
  token0 : TokenInfo
  token1 : TokenInfo
  fee : Int
  tick_spacing : Int
  factory : String
  deriving DecidableEq, Repr

/-- Oracle environment for the detector: every external effect (Web3 address
checksumming, Redis cache reads, `eth_getCode`, contract view calls) is a
pure function; `none` on a call means the call raised.  Redis reads are
modelled as already-decoded, non-raising lookups (`none` = cache miss).
`_cache_result` catches its own errors, and the pool-metadata cache write is
modelled as non-raising; the ERC-20 cache write at line 374 sits inside
`_get_erc20_metadata`'s own `try`, so its raising (`erc20SetRaises`) turns
the whole lookup into `None` and is kept. -/
structure DetectorEnv where
  checksum : String → Option String
  poolCheckCache : String → Option Bool
  getCode : String → Option String
  poolMetaCache : String → Option PoolMetadata
  callToken0 : String → Option String
  callToken1 : String → Option String
  callFactory : String → Option String
  callFee : String → Option Int
  callTickSpacing : String → Option Int
  erc20Cache : String → Option Erc20Metadata
  callName : String → Option String
  callSymbol : String → Option String
  callDecimals : String → Option Int
  erc20SetRaises : String → Bool

/-- The nine selectors of `REQUIRED_FUNCTION_SIGNATURES` (lines 31-41), with
the `0x` prefix already removed and lowercased, as `signature[2:].lower()`
does at line 225. -/
def REQUIRED_SELECTORS : List String :=
  ["ddca3f43", "3850c7bd", "c45a0155", "0dfe1681", "d21220a7",
   "1a686502", "70cf754a", "128acb08", "a138ed29"]

/-- Lines 219-227: number of required selectors occurring as substrings of
the lowercase bytecode hex. -/
def signatureMatches (bytecodeHex : String) : Nat :=
  (REQUIRED_SELECTORS.filter
    (fun s => containsSub s.data (pyLower bytecodeHex).data)).length

/-- `_has_contract_code` (lines 202-209): `get_code` must succeed and return
non-empty bytes.  Bytecode is modelled by its hex rendering (no `0x`);
`none` from the oracle is the raised-and-caught case returning `False`. -/
def hasContractCode (env : DetectorEnv) (addr : String) : Bool :=
  match env.getCode addr with
  | none => false
  | some code => !code.isEmpty

/-- `_has_required_function_signatures` (lines 211-240): at least 6 of the 9
selectors must occur in the lowercase bytecode hex; any exception returns
`False`. -/
def hasRequiredSignatures (env : DetectorEnv) (addr : String) : Bool :=
  match env.getCode addr with
  | none => false
  | some code =>
    if code.isEmpty then false
    else decide (6 ≤ signatureMatches code)

/-- `_is_valid_fee_tier` (lines 242-244); the `isinstance` check always holds
for the int-typed call result. -/
def isValidFeeTier (fee : Int) : Bool :=
  fee = 100 ∨ fee = 500 ∨ fee = 3000 ∨ fee = 10000

/-- The `expected_tick_spacing` map of `_is_valid_tick_spacing` (lines
252-257). -/
def expectedTickSpacing (fee : Int) : Option Int :=
  if fee = 100 then some 1
  else if fee = 500 then some 10
  else if fee = 3000 then some 60
  else if fee = 10000 then some 200
  else none

/-- `_is_valid_tick_spacing` (lines 246-259). -/
def isValidTickSpacing (fee tickSpacing : Int) : Bool :=
  expectedTickSpacing fee = some tickSpacing

/-- `_get_erc20_metadata` (lines 337-379): checksum the token address (a
raise here is caught by the outer handler at line 377, returning `None`),
consult the 24-hour cache, then fetch `name`/`symbol`/`decimals` where each
individual call failure falls back to `"Unknown Token"` / `"UNKNOWN"` /
`18`; finally write the 24-hour cache — a raise there is also caught by the
outer handler, so the whole lookup yields `None`. -/
def getErc20Metadata (env : DetectorEnv) (tokenAddress : String) : Option Erc20Metadata :=
  match env.checksum tokenAddress with
  | none => none
  | some ca =>
    match env.erc20Cache ca with
    | some m => some m
    | none =>
      if env.erc20SetRaises ca then none
      else
        some
          { name := (env.callName ca).getD "Unknown Token"
            symbol := (env.callSymbol ca).getD "UNKNOWN"
            decimals := (env.callDecimals ca).getD 18 }

/-- `get_pool_metadata` (lines 268-335): checksum, one-hour cache, the five
basic pool view calls (any failure returns `None`, lines 296-298), checksum
of the returned addresses (a raise is caught by the outer handler, `None`),
then both tokens' ERC-20 metadata — `None` from either fails the whole
lookup (lines 309-311). -/
def getPoolMetadata (env : DetectorEnv) (poolAddress : String) : Option PoolMetadata :=
  match env.checksum poolAddress with
  | none => none
  | some caddr =>
    match env.poolMetaCache caddr with
    | some m => some m
    | none =>
      match env.callToken0 caddr, env.callToken1 caddr, env.callFactory caddr,
        env.callFee caddr, env.callTickSpacing caddr with
      | some t0, some t1, some fa, some fee, some ts =>
        match env.checksum t0, env.checksum t1, env.checksum fa with
        | some ct0, some ct1, some cfa =>
          match getErc20Metadata env ct0, getErc20Metadata env ct1 with
          | some m0, some m1 =>
            some
              { address := caddr
                token0 := ⟨ct0, m0⟩
                token1 := ⟨ct1, m1⟩
                fee := fee
                tick_spacing := ts
                factory := cfa }
          | _, _ => none
        | _, _, _ => none
      | _, _, _, _, _ => none

/-- The literal WETH address of `uniswapv3_detector.py` line 184. -/
def WETH : String := "0xC02aaA39b223FE8D0A0e5C4F27eAD9083C756Cc2"

/-- Result of `is_uniswap_v3_pool`: a returned boolean, or a propagated
exception. -/
inductive PoolCheckResult
  | ret (b : Bool)
  | raised
  deriving DecidableEq, Repr

/-- `is_uniswap_v3_pool` (lines 125-200).  The returned pair is the result
and the list of `uniswap_v3_pool_check` cache writes performed.

The translation keeps the Python local-variable scoping: `cache_key` is
assigned at line 146, after `Web3.to_checksum_address` at line 142, both
inside the `try`; when the checksum itself raises, the `except` handler at
line 199 evaluates `self._cache_result(cache_key, False)` with `cache_key`
unbound, so the handler raises `UnboundLocalError`, which propagates to the
caller (`PoolCheckResult.raised`, no cache write).  Every later exception —
modelled here only for the checksum of the WETH literal, the one later
oracle call whose failure is not already handled by a callee — reaches the
same handler with `cache_key` bound and yields a cached `False`. -/
def isUniswapV3Pool (env : DetectorEnv) (addr : String) :
    PoolCheckResult × List (String × Bool) :=
  match env.checksum addr with
  | none => (.raised, [])
  | some caddr =>
    let ck := "uniswap_v3_pool_check:" ++ caddr
    match env.poolCheckCache ck with
    | some b => (.ret b, [])
    | none =>
      if !hasContractCode env caddr then (.ret false, [(ck, false)])
      else if !hasRequiredSignatures env caddr then (.ret false, [(ck, false)])
      else
        match getPoolMetadata env caddr with
        | none => (.ret false, [(ck, false)])
        | some m =>
          if !isValidFeeTier m.fee then (.ret false, [(ck, false)])
          else if !isValidTickSpacing m.fee m.tick_spacing then (.ret false, [(ck, false)])
          else
            match env.checksum WETH with
            | none => (.ret false, [(ck, false)])
            | some weth =>
              if m.token0.address ≠ weth ∧ m.token1.address ≠ weth then
                (.ret false, [(ck, false)])
              else (.ret true, [(ck, true)])

/-! ## TxProcessor worker (`tx_processor.py`, `process_transaction`) -/

/-- `retry_counts` is a `defaultdict(int)`: lookup of an absent hash is 0. -/
def lookupD : List (String × Nat) → String → Nat
  | [], _ => 0
  | (k', v) :: rest, k => if k' = k then v else lookupD rest k

/-- `defaultdict` assignment, sharing the dict semantics of `assocSet`. -/
def updateD (rc : List (String × Nat)) (k : String) (v : Nat) : List (String × Nat) :=
  assocSet rc k v

/-- Oracle environment for one `process_transaction` call: the receipt fetch
(`error` = the call raised; `ok none` = a JSON `null` receipt), the outcome
of `random.random() < 0.1`, the current-block fetch, and which hooks raise
inside `process_receipt`. -/
structure PTEnv where
  fetch : Except Unit (Option Receipt)
  probe : Bool
  currentBlock : Except Unit Int
  hookRaises : List Bool

/-- One hook invocation (`hook.process_receipt`), `error` when it raises. -/
def invokeHook (raises : Bool) : Except Unit Unit :=
  if raises then Except.error () else Except.ok ()

/-- `tx_processor.py` lines 75-80: the hook loop.  Each hook is invoked in
order; the inner `try`/`except` catches and logs a raising hook, so the loop
always continues and never lets the exception escape.  Returns the indexes
of the hooks whose `process_receipt` was invoked. -/
def hookLoop : List Bool → Nat → List Nat
  | [], _ => []
  | r :: rest, i =>
    match invokeHook r with
    | .ok _ => i :: hookLoop rest (i + 1)
    | .error _ => i :: hookLoop rest (i + 1)

/-- `tx_processor.py` lines 59-82, the body of the outer `try`: fetch the
receipt; on a truthy receipt optionally run the 10% staleness probe
(current-block fetch and `int(receipt['blockNumber'], 16)` may raise, and a
missing `blockNumber` raises `KeyError`; a lag above 100 blocks deletes the
whole queue and returns before the hooks); otherwise run the hook loop.  A
`null` receipt only logs.  The result is `(queue_deleted, hooks_invoked)`,
or `error` when an uncaught exception leaves the body. -/
def txTryBody (env : PTEnv) : Except Unit (Bool × List Nat) :=
  match env.fetch with
  | .error e => .error e
  | .ok none => .ok (false, [])
  | .ok (some receipt) =>
    let staleCheck : Except Unit Bool :=
      if env.probe then
        match env.currentBlock with
        | .error e => .error e
        | .ok cur =>
          match receipt.blockNumber with
          | none => .error ()
          | some h =>
            match pyIntHex h with
            | none => .error ()
            | some rb => .ok (decide (cur - (rb : Int) > 100))
      else .ok false
    match staleCheck with
    | .error e => .error e
    | .ok true => .ok (true, [])
    | .ok false => .ok (false, hookLoop env.hookRaises 0)

/-- The observable outcome of one `process_transaction` call: the updated
`retry_counts`, the hashes pushed back via `lpush`, whether the queue key
was deleted, and the hooks invoked. -/
structure PTResult where
  retryCounts : List (String × Nat)
  lpushed : List String
  queueDeleted : Bool
  hooksInvoked : List Nat
  deriving DecidableEq, Repr

/-- `process_transaction` (`tx_processor.py` lines 56-91): run the body; on
an escaping exception, re-insert the hash via `lpush` and increment its
retry count only while `retry_counts[tx_hash] < 2` (lines 85-91). -/
def processTransaction (env : PTEnv) (rc : List (String × Nat)) (txHash : String) :
    PTResult :=
  match txTryBody env with
  | .ok (del, hooks) =>
    { retryCounts := rc, lpushed := [], queueDeleted := del, hooksInvoked := hooks }
  | .error _ =>
    let c := lookupD rc txHash
    if c < 2 then
      { retryCounts := updateD rc txHash (c + 1), lpushed := [txHash],
        queueDeleted := false, hooksInvoked := [] }
    else
      { retryCounts := rc, lpushed := [], queueDeleted := false, hooksInvoked := [] }

/-- Iterate `process_transaction` on the same hash under a fixed environment,
recording the `lpush`es of each attempt (models the same hash being consumed
again after each re-insertion). -/
def iterateAttempts (env : PTEnv) (txHash : String) :
    Nat → List (String × Nat) → List (List String)
  | 0, _ => []
  | n + 1, rc =>
    let r := processTransaction env rc txHash
    r.lpushed :: iterateAttempts env txHash n r.retryCounts

/-! ## Receipt dumper (`receipt_dumper.py`, `data_manager.py`) -/

/-- A Redis hash store: key, then field-value pairs. -/
def HashStore : Type := List (String × List (String × String))

/-- Redis `HSET key field value`: overwrite the field when present, create
key and field otherwise. -/
def hsetModel (st : HashStore) (key field value : String) : HashStore :=
  match st with
  | [] => [(key, [(field, value)])]
  | (k, fields) :: rest =>
    if k = key then (k, assocSet fields field value) :: rest
    else (k, fields) :: hsetModel rest key field value

/-- Modelled from the spec: `block_tx_htable_key` lives in
`utils/redis/redis_keys.py`, which is absent from the sources; §4.4 and §6
give the key shape `block_tx_htable:<namespace>:<block_number>`. -/
def blockTxHtableKey (ns : String) (blockNumber : Nat) : String :=
  "block_tx_htable:" ++ ns ++ ":" ++ toString blockNumber

/-- `ReceiptDumper.process_receipt` (`receipt_dumper.py` lines 18-27)
composed with `RedisDataManager.add_receipt` (`data_manager.py` lines
35-41): parse `receipt['blockNumber']` with `int(_, 16)` (a raise
propagates, `error`); `add_receipt` is a no-op when the manager's Redis
handle is not set, else it `hset`s the serialized receipt under the
block-tx key with the transaction hash as field.  `dumps` stands for
`json.dumps`. -/
def receiptDumperProcess (dumps : Receipt → String) (redisReady : Bool)
    (st : HashStore) (ns txHash : String) (receipt : Receipt) :
    Except Unit HashStore :=
  match receipt.blockNumber with
  | none => Except.error ()
  | some h =>
    match pyIntHex h with
    | none => Except.error ()
    | some bn =>
      if redisReady then
        Except.ok (hsetModel st (blockTxHtableKey ns bn) txHash (dumps receipt))
      else Except.ok st

/-! ## Supporting lemmas -/

theorem toLower_of_lowerHex {c : Char} (h : isLowerHexDigit c = true) :
    c.toLower = c := by
  have h' : ¬ (c.toNat ≥ 65 ∧ c.toNat ≤ 90) := by
    simp only [isLowerHexDigit, decide_eq_true_eq] at h
    omega
  simp [Char.toLower, h']

theorem lowerHex_ne_x {c : Char} (h : isLowerHexDigit c = true) : c ≠ 'x' := by
  intro hc
  subst hc
  simp [isLowerHexDigit] at h

theorem lowerHex_map_toLower {h : List Char} (hhex : ∀ c ∈ h, isLowerHexDigit c = true) :
    h.map Char.toLower = h := by
  induction h with
  | nil => rfl
  | cons c t ih =>
    simp only [List.map_cons]
    rw [toLower_of_lowerHex (hhex c (by simp)), ih (fun d hd => hhex d (by simp [hd]))]

theorem pyLower_topicOfHex {h : List Char} (hhex : ∀ c ∈ h, isLowerHexDigit c = true) :
    pyLower (topicOfHex h) = topicOfHex h := by
  simp only [pyLower, topicOfHex, List.map_cons]
  rw [lowerHex_map_toLower hhex]
  rfl

theorem lstrip0xAux_length_le (l : List Char) : (lstrip0xAux l).length ≤ l.length := by
  induction l with
  | nil => simp [lstrip0xAux]
  | cons c t ih =>
    simp only [lstrip0xAux]
    split
    · exact Nat.le_trans ih (Nat.le_succ _)
    · simp

theorem lstrip0xAux_of_head_ne {c : Char} {t : List Char}
    (h0 : c ≠ '0') (hx : c ≠ 'x') : lstrip0xAux (c :: t) = c :: t := by
  simp [lstrip0xAux, h0, hx]

theorem normalizeTopicConfig_topicOfHex {h : List Char}
    (hhex : ∀ c ∈ h, isLowerHexDigit c = true) :
    normalizeTopicConfig (topicOfHex h) = topicOfHex h := by
  unfold normalizeTopicConfig
  rw [pyLower_topicOfHex hhex]
  rfl

theorem normalizeTopicReceipt_topicOfHex {h : List Char}
    (hhex : ∀ c ∈ h, isLowerHexDigit c = true) :
    normalizeTopicReceipt (topicOfHex h) = String.mk ('0' :: 'x' :: lstrip0xAux h) := by
  unfold normalizeTopicReceipt lstrip0x
  rw [pyLower_topicOfHex hhex]
  show String.mk ('0' :: 'x' :: lstrip0xAux ('0' :: 'x' :: h)) = _
  simp [lstrip0xAux]

/-- C10: the two topic normal forms used by `EventFilter` — configured-topic
normalization in `_prepare_filters` (lowercase, prepend `0x` if absent) and
per-log normalization in `process_receipt` (`'0x' + hex.lower().lstrip('0x')`)
— agree on a lowercase-hex topic hash exactly when its hex digits do not
start with `'0'` (an `'x'` cannot occur in a hex digit); and when the digits
do start with `'0'`, the per-log normal form differs from the
`events_by_topic` key computed for that hash, so a log bearing the topic
never matches its configured entry. -/
theorem claim_C10 (h : List Char) (hne : h ≠ [])
    (hhex : ∀ c ∈ h, isLowerHexDigit c = true) :
    (normalizeTopicConfig (topicOfHex h) = normalizeTopicReceipt (topicOfHex h)
        ↔ h.head? ≠ some '0')
    ∧ (h.head? = some '0' →
        normalizeTopicReceipt (topicOfHex h) ≠ topicOfHex h) := by
  obtain ⟨c, t, rfl⟩ : ∃ c t, h = c :: t := by
    cases h with
    | nil => exact absurd rfl hne
    | cons c t => exact ⟨c, t, rfl⟩
  rw [normalizeTopicConfig_topicOfHex hhex, normalizeTopicReceipt_topicOfHex hhex]
  by_cases hc : c = '0'
  · subst hc
    have hlen : (lstrip0xAux t).length ≤ t.length := lstrip0xAux_length_le t
    have hstrip : lstrip0xAux ('0' :: t) = lstrip0xAux t := by simp [lstrip0xAux]
    have hdiff : topicOfHex ('0' :: t) ≠ String.mk ('0' :: 'x' :: lstrip0xAux ('0' :: t)) := by
      intro he
      have hl := congrArg (fun s => s.data.length) he
      simp only [topicOfHex, hstrip, List.length_cons] at hl
      omega
    constructor
    · constructor
      · intro he
        exact absurd he hdiff
      · intro hh
        exact absurd rfl hh
    · intro _ he
      exact hdiff he.symm
  · have hx : c ≠ 'x' := lowerHex_ne_x (hhex c (by simp))
    have hstrip : lstrip0xAux (c :: t) = c :: t := lstrip0xAux_of_head_ne hc hx
    rw [hstrip]
    constructor
    · constructor
      · intro _ hh
        injection hh with hh
        exact hc hh
      · intro _
        rfl
    · intro hh
      injection hh with hh
      exact absurd hh hc

/-- Witness for C10 at the concrete hash digits `['0', '1']`: the two
normal forms of `0x01` differ and the per-log form misses the configured
key. -/
theorem claim_C10_witness :
    ¬ (normalizeTopicConfig (topicOfHex ['0', '1'])
        = normalizeTopicReceipt (topicOfHex ['0', '1']))
    ∧ normalizeTopicReceipt (topicOfHex ['0', '1']) ≠ topicOfHex ['0', '1'] := by
  have h := claim_C10 ['0', '1'] (by decide) (by decide)
  refine ⟨fun he => h.1.mp he (by decide), h.2 (by decide)⟩

/-- C1: for a receipt log whose address passes the pool-detector gate, whose
normalized `topics[0]` is a key of the filter's `events_by_topic`, and whose
ABI decoding succeeds, `process_receipt` emits exactly one member for the
sorted set keyed by `redis_key_pattern` formatted with the namespace and the
as-received log address, with score `block_number * 1_000_000 + log_index`,
and the member's `_score` field equals that score. -/
theorem claim_C1
    (gate : String → Bool) (decode : AbiItem → LogEntry → Option Args)
    (fn txHash ns : String) (pf : ProcessedFilterData)
    (log : LogEntry) (a t0 : String) (ts : List String)
    (liHex bh th : String) (li bn ti : Nat) (ed : ProcessedEventDetail) (args : Args)
    (haddr : log.address = some a) (hane : a ≠ "")
    (htop : log.topics = t0 :: ts)
    (hli : log.logIndex = some liHex) (hliP : pyIntHex liHex = some li)
    (hgate : gate (pyLower a) = true)
    (hlookup : lookupAssoc pf.eventsByTopic (normalizeTopicReceipt t0) = some ed)
    (hdec : decode ed.abi log = some args)
    (hbh : pyIntHex bh = some bn) (hth : pyIntHex th = some ti) :
    ∃ m : StoredMember,
      processReceiptCommands gate decode [(fn, pf)] txHash ns
          ⟨some bh, some th, [log]⟩
        = [(formatKey pf.redisKeyPattern ns a, m, bn * 1000000 + li)]
      ∧ m._score = bn * 1000000 + li := by
  refine ⟨{ eventName := ed.name, filterName := fn, txHash := txHash,
            blockNumber := bn, txIndex := ti, logIndex := li, address := a,
            topics := (t0 :: ts).map normalizeTopicMember,
            data := log.data.getD "", args := args,
            _score := bn * 1000000 + li }, ?_, rfl⟩
  show processReceiptCommands _ _ _ _ _ _ = _
  unfold processReceiptCommands
  simp only [List.isEmpty_cons, hbh, hth]
  show (if false = true then _ else _) = _
  simp only [Bool.false_eq_true, if_false]
  show processLog _ _ _ _ _ _ _ _ ++ [] = _
  unfold processLog
  rw [haddr, htop, hli]
  simp only [hliP, if_neg hane]
  show List.filterMap _ [(fn, pf)] ++ [] = _
  simp only [List.filterMap_cons, List.filterMap_nil]
  unfold filterContribution
  simp only [List.headD_cons, hgate, hlookup, hdec, if_true]
  rfl

/-- Witness for C1: one concrete log under one concrete filter. -/
theorem claim_C1_witness :
    ∃ m : StoredMember,
      processReceiptCommands (fun _ => true) (fun _ _ => some [("amount", "7")])
          [("swaps", ⟨[("0xc420", ⟨"Swap", ⟨"event", some "Swap"⟩⟩)], "ns:{namespace}:swaps:{address}"⟩)]
          "0xdead" "prod"
          ⟨some "0x2a", some "0x0",
            [⟨some "0xPOOL", ["0xC420"], some "0x3", some "0x"⟩]⟩
        = [("ns:prod:swaps:0xPOOL", m, 42 * 1000000 + 3)]
      ∧ m._score = 42 * 1000000 + 3 := by
  have h := claim_C1 (fun _ => true) (fun _ _ => some [("amount", "7")])
    "swaps" "0xdead" "prod"
    ⟨[("0xc420", ⟨"Swap", ⟨"event", some "Swap"⟩⟩)], "ns:{namespace}:swaps:{address}"⟩
    ⟨some "0xPOOL", ["0xC420"], some "0x3", some "0x"⟩
    "0xPOOL" "0xC420" [] "0x3" "0x2a" "0x0" 3 42 0
    ⟨"Swap", ⟨"event", some "Swap"⟩⟩ [("amount", "7")]
    rfl (by decide) rfl rfl (by decide) rfl (by decide) rfl (by decide) (by decide)
  simpa using h

theorem lookupD_updateD_self (rc : List (String × Nat)) (k : String) (v : Nat) :
    lookupD (updateD rc k v) k = v := by
  induction rc with
  | nil => simp [updateD, assocSet, lookupD]
  | cons p rest ih =>
    obtain ⟨k', v'⟩ := p
    by_cases h : k' = k
    · simp [updateD, assocSet, lookupD, h]
    · simp only [updateD, assocSet, if_neg h, lookupD]
      exact ih

theorem lookupD_updateD_ne (rc : List (String × Nat)) (k k' : String) (v : Nat)
    (h : k ≠ k') : lookupD (updateD rc k v) k' = lookupD rc k' := by
  induction rc with
  | nil => simp [updateD, assocSet, lookupD, h]
  | cons p rest ih =>
    obtain ⟨k0, v0⟩ := p
    by_cases h0 : k0 = k
    · subst h0
      simp [updateD, assocSet, lookupD, h]
    · simp only [updateD, assocSet, if_neg h0, lookupD]
      by_cases h1 : k0 = k'
      · simp [h1]
      · rw [if_neg h1, if_neg h1]
        exact ih

theorem processTransaction_fetch_err {env : PTEnv} {rc : List (String × Nat)}
    {tx : String} (h : env.fetch = .error ()) :
    processTransaction env rc tx =
      if lookupD rc tx < 2 then
        { retryCounts := updateD rc tx (lookupD rc tx + 1), lpushed := [tx],
          queueDeleted := false, hooksInvoked := [] }
      else
        { retryCounts := rc, lpushed := [], queueDeleted := false, hooksInvoked := [] } := by
  have hb : txTryBody env = .error () := by
    unfold txTryBody
    rw [h]
  unfold processTransaction
  rw [hb]

theorem iterateAttempts_fail (env : PTEnv) (tx : String) (hfail : env.fetch = .error ()) :
    ∀ (n : Nat) (rc : List (String × Nat)),
      iterateAttempts env tx n rc
        = (List.range n).map (fun i => if lookupD rc tx + i < 2 then [tx] else []) := by
  intro n
  induction n with
  | zero => intro rc; rfl
  | succ n ih =>
    intro rc
    rw [iterateAttempts, processTransaction_fetch_err hfail,
      List.range_succ_eq_map, List.map_cons, List.map_map]
    by_cases hc : lookupD rc tx < 2
    · rw [if_pos hc]
      show [tx] :: _ = (if lookupD rc tx + 0 < 2 then [tx] else []) :: _
      rw [if_pos (by omega)]
      rw [ih (updateD rc tx (lookupD rc tx + 1))]
      refine congrArg _ (List.map_congr_left fun i _ => ?_)
      rw [lookupD_updateD_self]
      exact if_congr (by omega) rfl rfl
    · rw [if_neg hc]
      show [] :: _ = (if lookupD rc tx + 0 < 2 then [tx] else []) :: _
      rw [if_neg (by omega)]
      rw [ih rc]
      refine congrArg _ (List.map_congr_left fun i _ => ?_)
      exact if_congr (by omega) rfl rfl

/-- C2: under a fetch that raises, the hash is re-inserted via `lpush` on the
first two attempts only — after 3 total attempts (and on any later attempt)
no re-insertion happens; the per-hash retry count never decreases under any
environment; and a `null` receipt is not a failure: nothing is re-queued and
no retry count changes. -/
theorem claim_C2 (env envN : PTEnv) (tx : String) (rc0 : List (String × Nat)) (n : Nat)
    (hfail : env.fetch = .error ())
    (h0 : lookupD rc0 tx = 0)
    (hnull : envN.fetch = .ok none) :
    (iterateAttempts env tx n rc0
        = (List.range n).map (fun i => if i < 2 then [tx] else []))
    ∧ (∀ (env' : PTEnv) (rc : List (String × Nat)) (h' : String),
        lookupD rc h' ≤ lookupD (processTransaction env' rc tx).retryCounts h')
    ∧ (∀ rc, processTransaction envN rc tx
        = { retryCounts := rc, lpushed := [], queueDeleted := false,
            hooksInvoked := [] }) := by
  refine ⟨?_, ?_, ?_⟩
  · rw [iterateAttempts_fail env tx hfail n rc0]
    refine List.map_congr_left fun i _ => ?_
    rw [h0]
    exact if_congr (by omega) rfl rfl
  · intro env' rc h'
    unfold processTransaction
    cases hb : txTryBody env' with
    | ok r => exact Nat.le_refl _
    | error e =>
      by_cases hc : lookupD rc tx < 2
      · rw [if_pos hc]
        by_cases hh : tx = h'
        · subst hh
          simp only [lookupD_updateD_self]
          omega
        · simp only [lookupD_updateD_ne rc tx h' _ hh]
          exact Nat.le_refl _
      · rw [if_neg hc]
  · intro rc
    have hb : txTryBody envN = .ok (false, []) := by
      unfold txTryBody
      rw [hnull]
    unfold processTransaction
    rw [hb]

/-- Witness for C2: four consecutive failing attempts re-insert twice then
stop, and a `null` receipt leaves everything untouched. -/
theorem claim_C2_witness :
    iterateAttempts ⟨.error (), false, .ok 0, []⟩ "0xabc" 4 []
        = [["0xabc"], ["0xabc"], [], []]
    ∧ processTransaction ⟨.ok none, false, .ok 0, []⟩ [("0xdef", 1)] "0xabc"
        = ⟨[("0xdef", 1)], [], false, []⟩ := by
  have h := claim_C2 ⟨.error (), false, .ok 0, []⟩ ⟨.ok none, false, .ok 0, []⟩
    "0xabc" [] 4 rfl rfl rfl
  exact ⟨by rw [h.1]; rfl, h.2.2 [("0xdef", 1)]⟩

/-- C7: when the 1/10 staleness probe fires and the fetched current block
number exceeds the receipt's block number by more than 100, the worker
deletes the whole queue key and returns without invoking any hook; when the
difference is at most 100, the queue is not deleted and the hook loop runs
(no retry or re-insertion happens in either case). -/
theorem claim_C7 (env : PTEnv) (rc : List (String × Nat)) (tx : String)
    (receipt : Receipt) (bh : String) (cur : Int) (rb : Nat)
    (hfetch : env.fetch = .ok (some receipt))
    (hprobe : env.probe = true)
    (hcur : env.currentBlock = .ok cur)
    (hbn : receipt.blockNumber = some bh)
    (hrb : pyIntHex bh = some rb) :
    (cur - (rb : Int) > 100 →
      processTransaction env rc tx
        = { retryCounts := rc, lpushed := [], queueDeleted := true,
            hooksInvoked := [] })
    ∧ (cur - (rb : Int) ≤ 100 →
      processTransaction env rc tx
        = { retryCounts := rc, lpushed := [], queueDeleted := false,
            hooksInvoked := hookLoop env.hookRaises 0 }) := by
  constructor
  · intro hgt
    have hb : txTryBody env = .ok (true, []) := by
      unfold txTryBody
      rw [hfetch]
      simp only [hprobe, if_true, hcur, hbn, hrb, decide_eq_true hgt]
    unfold processTransaction
    rw [hb]
  · intro hle
    have hb : txTryBody env = .ok (false, hookLoop env.hookRaises 0) := by
      unfold txTryBody
      rw [hfetch]
      simp only [hprobe, if_true, hcur, hbn, hrb, decide_eq_false (by omega : ¬ cur - (rb : Int) > 100)]
    unfold processTransaction
    rw [hb]

/-- Witness for C7: a receipt at block 100 with current block 512 (probe
fires, lag 412 > 100) purges the queue and skips the one configured hook; at
current block 150 the hook runs and nothing is deleted. -/
theorem claim_C7_witness :
    processTransaction
        ⟨.ok (some ⟨some "0x64", some "0x0", []⟩), true, .ok 512, [false]⟩ [] "0xabc"
      = { retryCounts := [], lpushed := [], queueDeleted := true, hooksInvoked := [] }
    ∧ processTransaction
        ⟨.ok (some ⟨some "0x64", some "0x0", []⟩), true, .ok 150, [false]⟩ [] "0xabc"
      = { retryCounts := [], lpushed := [], queueDeleted := false, hooksInvoked := [0] } := by
  constructor
  · exact (claim_C7 ⟨.ok (some ⟨some "0x64", some "0x0", []⟩), true, .ok 512, [false]⟩
      [] "0xabc" ⟨some "0x64", some "0x0", []⟩ "0x64" 512 100
      rfl rfl rfl rfl (by decide)).1 (by decide)
  · exact (claim_C7 ⟨.ok (some ⟨some "0x64", some "0x0", []⟩), true, .ok 150, [false]⟩
      [] "0xabc" ⟨some "0x64", some "0x0", []⟩ "0x64" 150 100
      rfl rfl rfl rfl (by decide)).2 (by decide)

theorem hookLoop_eq (l : List Bool) : ∀ i, hookLoop l i = (List.range l.length).map (i + ·) := by
  induction l with
  | nil => intro i; rfl
  | cons r rest ih =>
    intro i
    have hstep : hookLoop (r :: rest) i = i :: hookLoop rest (i + 1) := by
      cases r <;> rfl
    rw [hstep, ih (i + 1), List.length_cons, List.range_succ_eq_map, List.map_cons,
      List.map_map]
    refine congrArg₂ _ (Nat.add_zero i) (List.map_congr_left fun j _ => ?_)
    show i + 1 + j = i + (j + 1)
    omega

/-- Counterexample to C8 as stated: with a successfully fetched receipt and a
single hook whose `process_receipt` raises (`hookRaises = [true]`,
`invokeHook true` is an error), `process_transaction` neither increments the
retry count nor re-inserts the hash — the hook exception is confined to the
inner per-hook handler and never reaches the retry path. -/
theorem claim_C8_counterexample :
    invokeHook true = Except.error ()
    ∧ processTransaction
        ⟨.ok (some ⟨some "0x10", some "0x0", []⟩), false, .ok 0, [true]⟩ [] "0xabc"
      = { retryCounts := [], lpushed := [], queueDeleted := false,
          hooksInvoked := [0] } := by
  exact ⟨rfl, rfl⟩

/-- C8 (amended): an exception raised by the receipt fetch reaches the retry
path — while under the cap it increments `retry_counts[hash]` and `lpush`es
the hash back — but an exception raised by a hook's `process_receipt` is
caught by the inner per-hook handler: the retry counts and queue are
untouched, and every hook (including later ones) is still invoked. -/
theorem claim_C8 (env envH : PTEnv) (rc : List (String × Nat)) (tx : String)
    (receipt : Receipt)
    (hfail : env.fetch = .error ())
    (hcap : lookupD rc tx < 2)
    (hHf : envH.fetch = .ok (some receipt))
    (hHp : envH.probe = false) :
    processTransaction env rc tx
      = { retryCounts := updateD rc tx (lookupD rc tx + 1), lpushed := [tx],
          queueDeleted := false, hooksInvoked := [] }
    ∧ processTransaction envH rc tx
      = { retryCounts := rc, lpushed := [], queueDeleted := false,
          hooksInvoked := (List.range envH.hookRaises.length).map (0 + ·) } := by
  constructor
  · rw [processTransaction_fetch_err hfail, if_pos hcap]
  · have hb : txTryBody envH = .ok (false, hookLoop envH.hookRaises 0) := by
      unfold txTryBody
      rw [hHf]
      simp only [hHp, if_false, Bool.false_eq_true]
    unfold processTransaction
    rw [hb, hookLoop_eq]

/-- Witness for C8 (amended): a failing fetch of `0xabc` at count 0 retries;
a raising hook after a good fetch leaves counts and queue untouched while
both hooks run. -/
theorem claim_C8_witness :
    processTransaction ⟨.error (), false, .ok 0, []⟩ [] "0xabc"
      = { retryCounts := [("0xabc", 1)], lpushed := ["0xabc"],
          queueDeleted := false, hooksInvoked := [] }
    ∧ processTransaction
        ⟨.ok (some ⟨some "0x10", some "0x0", []⟩), false, .ok 0, [true, false]⟩
        [] "0xabc"
      = { retryCounts := [], lpushed := [], queueDeleted := false,
          hooksInvoked := [0, 1] } := by
  have h := claim_C8 ⟨.error (), false, .ok 0, []⟩
    ⟨.ok (some ⟨some "0x10", some "0x0", []⟩), false, .ok 0, [true, false]⟩
    [] "0xabc" ⟨some "0x10", some "0x0", []⟩ rfl (by decide) rfl rfl
  exact ⟨h.1, by rw [h.2]; rfl⟩

/-- C3 (code bug): when `Web3.to_checksum_address` raises on the input
address, the `except` handler of `is_uniswap_v3_pool` reads the local
`cache_key` before its assignment (line 146 runs after line 142), so the
handler itself raises `UnboundLocalError`: the call propagates an exception
to its caller and caches nothing, instead of returning `false` and caching
`false`.  The environment below makes every external call raise, as for a
malformed address string. -/
theorem claim_C3 :
    isUniswapV3Pool
        ⟨fun _ => none, fun _ => none, fun _ => none, fun _ => none, fun _ => none,
         fun _ => none, fun _ => none, fun _ => none, fun _ => none, fun _ => none,
         fun _ => none, fun _ => none, fun _ => none, fun _ => false⟩ "not-an-address"
      = (PoolCheckResult.raised, []) := rfl

/-- C5: for an address with no cached verdict, `is_uniswap_v3_pool` returns
`true` only if the bytecode hex contains at least 6 of the 9 canonical
selectors, the pool metadata is obtained, the fee lies in
`{100, 500, 3000, 10000}`, the tick spacing is the canonical value for that
fee, and one of the two tokens is the canonical WETH address (the
hypothesis on `checksum WETH` records that checksumming the already
checksummed WETH literal is the identity). -/
theorem claim_C5 (env : DetectorEnv) (addr caddr : String)
    (hck : env.checksum addr = some caddr)
    (hw : env.checksum WETH = some WETH)
    (hmiss : env.poolCheckCache ("uniswap_v3_pool_check:" ++ caddr) = none)
    (htrue : (isUniswapV3Pool env addr).1 = PoolCheckResult.ret true) :
    (∃ bch, env.getCode caddr = some bch ∧ 6 ≤ signatureMatches bch)
    ∧ ∃ m, getPoolMetadata env caddr = some m
        ∧ (m.fee = 100 ∨ m.fee = 500 ∨ m.fee = 3000 ∨ m.fee = 10000)
        ∧ expectedTickSpacing m.fee = some m.tick_spacing
        ∧ (m.token0.address = WETH ∨ m.token1.address = WETH) := by
  unfold isUniswapV3Pool at htrue
  simp only [hck, hmiss] at htrue
  cases h1 : hasContractCode env caddr with
  | false => simp [h1] at htrue
  | true =>
    simp only [h1, Bool.not_true, Bool.false_eq_true, if_false] at htrue
    cases h2 : hasRequiredSignatures env caddr with
    | false => simp [h2] at htrue
    | true =>
      simp only [h2, Bool.not_true, Bool.false_eq_true, if_false] at htrue
      cases hm : getPoolMetadata env caddr with
      | none => simp [hm] at htrue
      | some m =>
        simp only [hm] at htrue
        cases h3 : isValidFeeTier m.fee with
        | false => simp [h3] at htrue
        | true =>
          simp only [h3, Bool.not_true, Bool.false_eq_true, if_false] at htrue
          cases h4 : isValidTickSpacing m.fee m.tick_spacing with
          | false => simp [h4] at htrue
          | true =>
            simp only [h4, Bool.not_true, Bool.false_eq_true, if_false] at htrue
            simp only [hw] at htrue
            by_cases h5 : m.token0.address ≠ WETH ∧ m.token1.address ≠ WETH
            · simp [h5] at htrue
            · constructor
              · unfold hasRequiredSignatures at h2
                cases hg : env.getCode caddr with
                | none => simp [hg] at h2
                | some code =>
                  simp only [hg] at h2
                  cases he : code.isEmpty with
                  | true => simp [he] at h2
                  | false =>
                    simp only [he, Bool.false_eq_true, if_false, decide_eq_true_eq] at h2
                    exact ⟨code, rfl, h2⟩
              · refine ⟨m, rfl, ?_, ?_, ?_⟩
                · simpa [isValidFeeTier, decide_eq_true_eq] using h3
                · simpa [isValidTickSpacing, decide_eq_true_eq] using h4
                · rcases not_and_or.mp h5 with h | h
                  · exact Or.inl (not_not.mp h)
                  · exact Or.inr (not_not.mp h)

/-- The healthy pool environment used by the C5 witness: identity
checksumming, empty caches, bytecode holding six selectors, a 0.05% pool
with canonical tick spacing whose `token0` is WETH. -/
def poolEnv : DetectorEnv where
  checksum := fun s => some s
  poolCheckCache := fun _ => none
  getCode := fun _ =>
    some "ddca3f4300003850c7bd0000c45a015500000dfe16810000d21220a700001a686502"
  poolMetaCache := fun _ => none
  callToken0 := fun _ => some WETH
  callToken1 := fun _ => some "0xTokenB"
  callFactory := fun _ => some "0xFactory"
  callFee := fun _ => some 500
  callTickSpacing := fun _ => some 10
  erc20Cache := fun _ => none
  callName := fun _ => some "Wrapped Ether"
  callSymbol := fun _ => some "WETHSYM"
  callDecimals := fun _ => some 18
  erc20SetRaises := fun _ => false

/-- Witness for C5: on `poolEnv` the detector answers `true`, and the four
necessary conditions hold. -/
theorem claim_C5_witness :
    (∃ bch, poolEnv.getCode "0xPool" = some bch ∧ 6 ≤ signatureMatches bch)
    ∧ ∃ m, getPoolMetadata poolEnv "0xPool" = some m
        ∧ (m.fee = 100 ∨ m.fee = 500 ∨ m.fee = 3000 ∨ m.fee = 10000)
        ∧ expectedTickSpacing m.fee = some m.tick_spacing
        ∧ (m.token0.address = WETH ∨ m.token1.address = WETH) := by
  exact claim_C5 poolEnv "0xPool" "0xPool" rfl rfl rfl (by decide)

/-- An environment whose three ERC-20 metadata view calls all raise but
whose other oracles are healthy, for the C9 counterexample. -/
def erc20FailEnv : DetectorEnv where
  checksum := fun s => some s
  poolCheckCache := fun _ => none
  getCode := fun _ =>
    some "ddca3f4300003850c7bd0000c45a015500000dfe16810000d21220a700001a686502"
  poolMetaCache := fun _ => none
  callToken0 := fun _ => some WETH
  callToken1 := fun _ => some "0xTokenB"
  callFactory := fun _ => some "0xFactory"
  callFee := fun _ => some 500
  callTickSpacing := fun _ => some 10
  erc20Cache := fun _ => none
  callName := fun _ => none
  callSymbol := fun _ => none
  callDecimals := fun _ => none
  erc20SetRaises := fun _ => false

/-- Counterexample to C9 as stated: when all three of a token's metadata
calls fail, `_get_erc20_metadata` does not fail — each field independently
falls back, producing the all-fallback dict — and `get_pool_metadata`
returns full metadata rather than null. -/
theorem claim_C9_counterexample :
    erc20FailEnv.callName "0xTokenB" = none
    ∧ erc20FailEnv.callSymbol "0xTokenB" = none
    ∧ erc20FailEnv.callDecimals "0xTokenB" = none
    ∧ getErc20Metadata erc20FailEnv "0xTokenB"
        = some ⟨"Unknown Token", "UNKNOWN", 18⟩
    ∧ getPoolMetadata erc20FailEnv "0xPool"
        = some ⟨"0xPool", ⟨WETH, ⟨"Unknown Token", "UNKNOWN", 18⟩⟩,
                ⟨"0xTokenB", ⟨"Unknown Token", "UNKNOWN", 18⟩⟩,
                500, 10, "0xFactory"⟩ :=
  ⟨rfl, rfl, rfl, rfl, rfl⟩

/-- C9 (amended): an individual `name`/`symbol`/`decimals` call failure
falls back to `"Unknown Token"` / `"UNKNOWN"` / `18` (so even three failing
calls still produce metadata); `_get_erc20_metadata` yields null only when
the lookup fails as a whole (an exception outside the per-field fallbacks,
e.g. its cache write raising), in which case `get_pool_metadata` returns
null and the uncached pool verdict is false and cached false. -/
theorem claim_C9 (env : DetectorEnv) :
    (∀ t ct, env.checksum t = some ct → env.erc20Cache ct = none →
      env.erc20SetRaises ct = false →
      getErc20Metadata env t
        = some ⟨(env.callName ct).getD "Unknown Token",
                (env.callSymbol ct).getD "UNKNOWN",
                (env.callDecimals ct).getD 18⟩)
    ∧ (∀ p cp t0 t1 fa fee ts ct0,
        env.checksum p = some cp →
        env.poolMetaCache cp = none →
        env.callToken0 cp = some t0 → env.callToken1 cp = some t1 →
        env.callFactory cp = some fa → env.callFee cp = some fee →
        env.callTickSpacing cp = some ts →
        env.checksum t0 = some ct0 →
        getErc20Metadata env ct0 = none →
        getPoolMetadata env p = none)
    ∧ (∀ addr caddr,
        env.checksum addr = some caddr →
        env.poolCheckCache ("uniswap_v3_pool_check:" ++ caddr) = none →
        hasContractCode env caddr = true →
        hasRequiredSignatures env caddr = true →
        getPoolMetadata env caddr = none →
        isUniswapV3Pool env addr
          = (PoolCheckResult.ret false,
             [("uniswap_v3_pool_check:" ++ caddr, false)])) := by
  refine ⟨?_, ?_, ?_⟩
  · intro t ct hck hcache hset
    unfold getErc20Metadata
    rw [hck]
    simp only [hcache, hset, Bool.false_eq_true, if_false]
  · intro p cp t0 t1 fa fee ts ct0 hck hcache h0 h1 hfa hfee hts hct0 herc
    unfold getPoolMetadata
    rw [hck]
    simp only [hcache, h0, h1, hfa, hfee, hts, hct0]
    cases env.checksum t1 with
    | none => rfl
    | some ct1 =>
      cases env.checksum fa with
      | none => rfl
      | some cfa => simp only [herc]
  · intro addr caddr hck hmiss h1 h2 hm
    unfold isUniswapV3Pool
    simp only [hck, hmiss, h1, h2, hm, Bool.not_true, Bool.false_eq_true, if_false]

/-- An environment whose ERC-20 cache write raises for token `0xT0`, for
the C9 witness: the whole ERC-20 lookup fails, the pool metadata is null,
and the verdict is a cached false. -/
def erc20SetFailEnv : DetectorEnv where
  checksum := fun s => some s
  poolCheckCache := fun _ => none
  getCode := fun _ =>
    some "ddca3f4300003850c7bd0000c45a015500000dfe16810000d21220a700001a686502"
  poolMetaCache := fun _ => none
  callToken0 := fun _ => some "0xT0"
  callToken1 := fun _ => some "0xTokenB"
  callFactory := fun _ => some "0xFactory"
  callFee := fun _ => some 500
  callTickSpacing := fun _ => some 10
  erc20Cache := fun _ => none
  callName := fun _ => none
  callSymbol := fun _ => some "TKN"
  callDecimals := fun _ => some 18
  erc20SetRaises := fun s => s = "0xT0"

/-- Witness for C9 (amended): per-field fallback on `erc20FailEnv`, and on
`erc20SetFailEnv` the wholly-failed token lookup nulls the pool metadata
and caches a false verdict. -/
theorem claim_C9_witness :
    getErc20Metadata erc20FailEnv "0xTokenB"
        = some ⟨"Unknown Token", "UNKNOWN", 18⟩
    ∧ getPoolMetadata erc20SetFailEnv "0xPool" = none
    ∧ isUniswapV3Pool erc20SetFailEnv "0xPool"
        = (PoolCheckResult.ret false,
           [("uniswap_v3_pool_check:" ++ "0xPool", false)]) := by
  have h := claim_C9 erc20FailEnv
  have h' := claim_C9 erc20SetFailEnv
  refine ⟨h.1 "0xTokenB" "0xTokenB" rfl rfl rfl, ?_, ?_⟩
  · exact h'.2.1 "0xPool" "0xPool" "0xT0" "0xTokenB" "0xFactory" 500 10 "0xT0"
      rfl rfl rfl rfl rfl rfl rfl rfl rfl
  · refine h'.2.2 "0xPool" "0xPool" rfl rfl rfl (by decide) ?_
    exact h'.2.1 "0xPool" "0xPool" "0xT0" "0xTokenB" "0xFactory" 500 10 "0xT0"
      rfl rfl rfl rfl rfl rfl rfl rfl rfl

/-- ABI-loading oracle for the C4 counterexample: one path is absent, one
holds malformed JSON, one parses to a single `Swap` event entry. -/
def loadFix : String → AbiLoad := fun p =>
  if p = "missing.json" then .missing
  else if p = "bad.json" then .malformed
  else .ok [⟨"event", some "Swap"⟩]

/-- Keccak oracle for the C4 counterexample: every event hashes to `c420`. -/
def topicFix : AbiItem → Option String := fun _ => some "c420"

/-- Counterexample to C4 as stated: with a missing-ABI filter, a
malformed-ABI filter and a healthy filter, `_prepare_filters` returns
normally — the internal `RuntimeError` for the first filter is raised but
caught by the per-filter handler — so no initialization error surfaces and
the constructor does not raise; the two broken filters are silently skipped
exactly like a zero-topic filter, and processing continues. -/
theorem claim_C4_counterexample :
    prepareOneFilterBody loadFix topicFix
        ⟨"fmiss", "missing.json", ["0xc420"], "k:{address}"⟩
      = .error .abiMissing
    ∧ prepareFilters loadFix topicFix
        [⟨"fmiss", "missing.json", ["0xc420"], "k:{address}"⟩,
         ⟨"fbad", "bad.json", ["0xc420"], "k:{address}"⟩,
         ⟨"fgood", "good.json", ["0xc420"], "k:{address}"⟩]
      = [("fgood",
          ⟨[("0xc420", ⟨"Swap", ⟨"event", some "Swap"⟩⟩)], "k:{address}"⟩)] :=
  ⟨rfl, rfl⟩

/-- C4 (amended): during `_prepare_filters`, a filter whose configured
topics match no ABI event is skipped with a warning; a missing ABI file or
malformed ABI JSON raises a `RuntimeError` inside the per-filter `try`, but
the per-filter `except` catches and logs it, so that filter too is skipped,
the remaining filters are still processed, and no initialization error
surfaces to the caller (the constructor never raises). -/
theorem claim_C4 (load : String → AbiLoad) (topicOf : AbiItem → Option String)
    (f : FilterDef) (defs : List FilterDef) :
    (load f.abi_path = .missing ∨ load f.abi_path = .malformed →
      (∃ e, prepareOneFilterBody load topicOf f = .error e)
      ∧ prepareFilters load topicOf (f :: defs) = prepareFilters load topicOf defs)
    ∧ (∀ items, load f.abi_path = .ok items →
        (matchedEvents topicOf f items).isEmpty = true →
        prepareFilters load topicOf (f :: defs) = prepareFilters load topicOf defs) := by
  constructor
  · intro hload
    have hbody : ∃ e, prepareOneFilterBody load topicOf f = .error e := by
      rcases hload with h | h
      · exact ⟨.abiMissing, by unfold prepareOneFilterBody; rw [h]⟩
      · exact ⟨.abiMalformed, by unfold prepareOneFilterBody; rw [h]⟩
    refine ⟨hbody, ?_⟩
    obtain ⟨e, he⟩ := hbody
    have hone : prepareOneFilter load topicOf f = none := by
      unfold prepareOneFilter
      rw [he]
    show List.foldl _ _ (f :: defs) = _
    simp only [List.foldl_cons, hone]
    rfl
  · intro items hload hempty
    have hone : prepareOneFilter load topicOf f = none := by
      unfold prepareOneFilter prepareOneFilterBody
      rw [hload]
      simp only [hempty, if_true]
    show List.foldl _ _ (f :: defs) = _
    simp only [List.foldl_cons, hone]
    rfl

/-- Witness for C4 (amended): the missing-ABI filter raises internally and
is skipped, and a filter whose only topic matches nothing is skipped. -/
theorem claim_C4_witness :
    ((∃ e, prepareOneFilterBody loadFix topicFix
        ⟨"fmiss", "missing.json", ["0xc420"], "k:{address}"⟩ = .error e)
      ∧ prepareFilters loadFix topicFix
          [⟨"fmiss", "missing.json", ["0xc420"], "k:{address}"⟩]
        = prepareFilters loadFix topicFix [])
    ∧ prepareFilters loadFix topicFix
        [⟨"fnone", "good.json", ["0xffff"], "k:{address}"⟩]
      = prepareFilters loadFix topicFix [] := by
  have h := claim_C4 loadFix topicFix
    ⟨"fmiss", "missing.json", ["0xc420"], "k:{address}"⟩ []
  have h' := claim_C4 loadFix topicFix
    ⟨"fnone", "good.json", ["0xffff"], "k:{address}"⟩ []
  exact ⟨h.1 (Or.inl rfl), h'.2 [⟨"event", some "Swap"⟩] rfl rfl⟩

/-- Idempotence of dict assignment: re-assigning the same value is a
no-op. -/
theorem assocSet_idem {β : Type} (l : List (String × β)) (k : String) (v : β) :
    assocSet (assocSet l k v) k v = assocSet l k v := by
  induction l with
  | nil => simp [assocSet]
  | cons p rest ih =>
    obtain ⟨k', v'⟩ := p
    by_cases h : k' = k
    · simp [assocSet, h]
    · simp only [assocSet, if_neg h]
      rw [ih]

/-- Idempotence of the Redis `HSET` model: overwriting a field with the same
value leaves the store unchanged. -/
theorem hsetModel_idem (st : HashStore) (key field value : String) :
    hsetModel (hsetModel st key field value) key field value
      = hsetModel st key field value := by
  induction st with
  | nil => simp [hsetModel, assocSet]
  | cons p rest ih =>
    obtain ⟨k, fields⟩ := p
    by_cases h : k = key
    · simp [hsetModel, h, assocSet_idem]
    · simp only [hsetModel, if_neg h]
      rw [ih]

/-- C6: for a receipt whose `blockNumber` is a parseable hex string, the
receipt dumper writes the receipt's JSON serialization to the block-tx hash
key of the parsed block under the transaction-hash field, and re-processing
the same receipt overwrites the same field with the same value, leaving the
store unchanged (idempotent on replay). -/
theorem claim_C6 (dumps : Receipt → String) (st : HashStore)
    (ns txHash bh : String) (r : Receipt) (bn : Nat)
    (hbn : r.blockNumber = some bh) (hparse : pyIntHex bh = some bn) :
    receiptDumperProcess dumps true st ns txHash r
      = .ok (hsetModel st (blockTxHtableKey ns bn) txHash (dumps r))
    ∧ receiptDumperProcess dumps true
        (hsetModel st (blockTxHtableKey ns bn) txHash (dumps r)) ns txHash r
      = .ok (hsetModel st (blockTxHtableKey ns bn) txHash (dumps r)) := by
  have hstep : ∀ st' : HashStore,
      receiptDumperProcess dumps true st' ns txHash r
        = .ok (hsetModel st' (blockTxHtableKey ns bn) txHash (dumps r)) := by
    intro st'
    unfold receiptDumperProcess
    rw [hbn]
    simp only [hparse, if_true]
  refine ⟨hstep st, ?_⟩
  rw [hstep (hsetModel st (blockTxHtableKey ns bn) txHash (dumps r)),
    hsetModel_idem]

/-- Witness for C6 at a concrete receipt (block `0x10` = 16). -/
theorem claim_C6_witness :
    receiptDumperProcess (fun _ => "receiptjson") true [] "ns" "0xabc"
        ⟨some "0x10", some "0x0", []⟩
      = .ok [("block_tx_htable:ns:16", [("0xabc", "receiptjson")])]
    ∧ receiptDumperProcess (fun _ => "receiptjson") true
        [("block_tx_htable:ns:16", [("0xabc", "receiptjson")])] "ns" "0xabc"
        ⟨some "0x10", some "0x0", []⟩
      = .ok [("block_tx_htable:ns:16", [("0xabc", "receiptjson")])] := by
  have h := claim_C6 (fun _ => "receiptjson") [] "ns" "0xabc" "0x10"
    ⟨some "0x10", some "0x0", []⟩ 16 rfl (by decide)
  exact ⟨h.1, by rw [show ([("block_tx_htable:ns:16", [("0xabc", "receiptjson")])] : HashStore)
    = hsetModel [] (blockTxHtableKey "ns" 16) "0xabc"
        ((fun _ => "receiptjson") (⟨some "0x10", some "0x0", []⟩ : Receipt)) from rfl]; exact h.2⟩

end TxProc
